import Mathlib

/-!
Verification development for the TP_Dashboard rule-compilation engine
(`compile_rules.py` and `compile_rules2.py`).

The Python sources are shallowly embedded: pandas cells become an
inductive `Cell`, rows become association lists from column names to
cells, the regular-expression searches of the deadline classifier and
month extractor become explicit backtracking matchers over character
lists, and the mutable country registry becomes an association list
threaded through folds.  Case-insensitive regex search is modelled by
searching the lowercased text with lowercase patterns; the character
classes use their ASCII subsets, which covers all pattern constants of
the source.
-/

namespace TP

/-- Whitespace characters of the regex class `\s` (ASCII subset). -/
def isWsC (c : Char) : Bool :=
  c = ' ' || c = '\t' || c = '\n' || c = '\r' || c = '\x0b' || c = '\x0c'

/-- Digit characters, the regex class `\d` (ASCII). -/
def isDigitC (c : Char) : Bool := '0' ≤ c && c ≤ '9'

/-- Word characters used by the regex boundary `\b` (ASCII subset of `\w`). -/
def isWordC (c : Char) : Bool := c.isAlpha || isDigitC c || c = '_'

/-- Python `str.lower()` (ASCII subset: every string this program
lowers is ASCII). -/
def strLower (s : String) : String := String.mk (s.data.map Char.toLower)

/-- Python `str.upper()` (ASCII subset). -/
def strUpper (s : String) : String := String.mk (s.data.map Char.toUpper)

/-- Split on a single separator character, as Python `str.split(sep)`
with a one-character separator. -/
def splitCh (sep : Char) : List Char → List (List Char)
  | [] => [[]]
  | c :: cs =>
    let r := splitCh sep cs
    if c = sep then [] :: r
    else
      match r with
      | h :: t => (c :: h) :: t
      | [] => [[c]]

/-- Consume the literal `p` from the front of `cs`, returning the rest. -/
def matchLit : List Char → List Char → Option (List Char)
  | [], cs => some cs
  | _ :: _, [] => none
  | p :: ps, c :: cs => if c = p then matchLit ps cs else none

/-- Greedily drop whitespace, for `\s*` (safe: every pattern piece that
follows a whitespace class starts with a non-whitespace character). -/
def dropWs : List Char → List Char
  | [] => []
  | c :: cs => if isWsC c then dropWs cs else c :: cs

/-- `\s+`: at least one whitespace character, consumed greedily. -/
def matchWs1 : List Char → Option (List Char)
  | [] => none
  | c :: cs => if isWsC c then some (dropWs cs) else none

/-- Greedily drop digits. -/
def dropDigits : List Char → List Char
  | [] => []
  | c :: cs => if isDigitC c then dropDigits cs else c :: cs

/-- `\d+` consumed greedily (safe: every following pattern piece starts
with a non-digit). -/
def matchDigits1 : List Char → Option (List Char)
  | [] => none
  | c :: cs => if isDigitC c then some (dropDigits cs) else none

/-- `\d`: exactly one digit. -/
def matchDigit : List Char → Option (List Char)
  | [] => none
  | c :: cs => if isDigitC c then some cs else none

/-- Split a maximal digit prefix from the rest. -/
def takeDigits : List Char → List Char × List Char
  | [] => ([], [])
  | c :: cs =>
    if isDigitC c then
      let p := takeDigits cs
      (c :: p.1, p.2)
    else ([], c :: cs)

/-- Numeric value of a digit character. -/
def digitVal (c : Char) : Nat := c.toNat - 48

/-- Numeric value of a digit string. -/
def natOfDigits (ds : List Char) : Nat :=
  ds.foldl (fun acc c => 10 * acc + digitVal c) 0

/-- Sequencing helper: consume a literal after a previous match. -/
def thenLit (s : String) (o : Option (List Char)) : Option (List Char) :=
  o.bind (matchLit s.data)

/-- Sequencing helper: consume `\s+` after a previous match. -/
def thenWs1 (o : Option (List Char)) : Option (List Char) := o.bind matchWs1

/-- Sequencing helper: consume `\d+` after a previous match. -/
def thenDigits1 (o : Option (List Char)) : Option (List Char) := o.bind matchDigits1

/-- Sequencing helper: consume `\d` after a previous match. -/
def thenDigit (o : Option (List Char)) : Option (List Char) := o.bind matchDigit

/-- Try each literal alternative at the current position and continue
with `k`: regex alternation with backtracking, for a boolean search. -/
def altThen (alts : List String) (cs : List Char) (k : List Char → Bool) : Bool :=
  alts.any (fun a => match matchLit a.data cs with
    | some r => k r
    | none => false)

/-- `re.search` as a predicate: the pattern matches at some position. -/
def searchAny (p : List Char → Bool) : List Char → Bool
  | [] => p []
  | c :: cs => p (c :: cs) || searchAny p cs

/-- `re.search` returning the first position's extracted value. -/
def searchSome (p : List Char → Option Nat) : List Char → Option Nat
  | [] => p []
  | c :: cs =>
    match p (c :: cs) with
    | some v => some v
    | none => searchSome p cs

/-- Python's `needle in hay` on strings. -/
def containsStr (hay needle : String) : Bool :=
  searchAny (fun cs => (matchLit needle.data cs).isSome) hay.data

/-- `within\s+\d+\s+(day|days|month|months)\s+(after|of)\s+(fye|year|year-end)`
from `HARD_PAT`, at the current position. -/
def withinAfterAt (cs : List Char) : Bool :=
  match thenWs1 (thenDigits1 (thenWs1 (matchLit "within".data cs))) with
  | none => false
  | some r =>
    altThen ["day", "days", "month", "months"] r (fun r2 =>
      match matchWs1 r2 with
      | none => false
      | some r3 =>
        altThen ["after", "of"] r3 (fun r4 =>
          match matchWs1 r4 with
          | none => false
          | some r5 => altThen ["fye", "year", "year-end"] r5 (fun _ => true)))

/-- One alternative of `HARD_PAT` matches starting exactly at `cs`. -/
def hardAt (cs : List Char) : Bool :=
  (matchLit "submit".data cs).isSome ||
  (matchLit "file".data cs).isSome ||
  (matchLit "due".data cs).isSome ||
  (matchLit "deadline".data cs).isSome ||
  (matchLit "lodge".data cs).isSome ||
  (matchLit "lodgment".data cs).isSome ||
  (matchLit "upload".data cs).isSome ||
  (matchLit "deliver".data cs).isSome ||
  (matchLit "sign".data cs).isSome ||
  (matchLit "attest".data cs).isSome ||
  (matchLit "statutory".data cs).isSome ||
  (thenDigit (thenWs1 (matchLit "by".data cs))).isSome ||
  (thenLit "of" (thenWs1 (thenLit "end" (thenWs1 (matchLit "by".data cs))))).isSome ||
  (thenLit "of" (thenWs1 (thenLit "day" (thenWs1 (matchLit "last".data cs))))).isSome ||
  withinAfterAt cs

/-- `within\s+\d+\s+(day|days)\s+of\s+(audit|request|notice)` from
`SOFT_PAT`, at the current position. -/
def withinOfAt (cs : List Char) : Bool :=
  match thenWs1 (thenDigits1 (thenWs1 (matchLit "within".data cs))) with
  | none => false
  | some r =>
    altThen ["day", "days"] r (fun r2 =>
      match matchWs1 r2 with
      | none => false
      | some r3 =>
        match thenWs1 (matchLit "of".data r3) with
        | none => false
        | some r4 => altThen ["audit", "request", "notice"] r4 (fun _ => true))

/-- One alternative of `SOFT_PAT` matches starting exactly at `cs`. -/
def softAt (cs : List Char) : Bool :=
  (matchLit "prepare".data cs).isSome ||
  (matchLit "maintain".data cs).isSome ||
  (thenLit "request" (thenWs1 (matchLit "upon".data cs))).isSome ||
  withinOfAt cs ||
  (thenLit "demand" (thenWs1 (matchLit "on".data cs))).isSome ||
  (thenLit "file" (thenWs1 (thenLit "on" (thenWs1 (matchLit "keep".data cs))))).isSome ||
  (thenLit "request" (thenWs1 (thenLit "upon" (thenWs1 (matchLit "produce".data cs))))).isSome

/-- `HARD_PAT.search(text)` with `re.IGNORECASE`. -/
def hardSearch (text : String) : Bool := searchAny hardAt (strLower text).data

/-- `SOFT_PAT.search(text)` with `re.IGNORECASE`. -/
def softSearch (text : String) : Bool := searchAny softAt (strLower text).data

/-- `classify_deadline` from `compile_rules.py`. -/
def classify_deadline (text : String) : String :=
  if text = "" then ""
  else
    let is_hard := hardSearch text
    let is_soft := softSearch text
    if is_hard && !is_soft then "HARD"
    else if is_soft && !is_hard then "SOFT"
    else if is_hard && is_soft then "HARD"
    else ""

/-- The month-name alternatives of `MONTH_RE` with their month numbers,
longest first within each month (greedy optional suffixes with
backtracking). -/
def monthAlts : List (String × Nat) :=
  [("january", 1), ("jan", 1), ("february", 2), ("feb", 2),
   ("march", 3), ("mar", 3), ("april", 4), ("apr", 4), ("may", 5),
   ("june", 6), ("jun", 6), ("july", 7), ("jul", 7),
   ("august", 8), ("aug", 8),
   ("september", 9), ("sept", 9), ("sep", 9),
   ("october", 10), ("oct", 10), ("november", 11), ("nov", 11),
   ("december", 12), ("dec", 12)]

/-- The trailing word boundary `\b`: end of input or a non-word char
next (the pattern just matched ends in a word character). -/
def bEnd : List Char → Bool
  | [] => true
  | c :: _ => !isWordC c

/-- `MONTH_RE` at the current position (leading `\b` checked by the
scanner); returns the month number, which equals
`MONTH_MAP[m.group(1)[:3]]` for every alternative. -/
def monthHere (cs : List Char) : Option Nat :=
  monthAlts.findSome? (fun a =>
    match matchLit a.1.data cs with
    | some r => if bEnd r then some a.2 else none
    | none => none)

/-- Position scanner with a leading word boundary: `prev` is the
character before the current position.  Every pattern scanned this way
starts with a word character, so `\b` holds iff `prev` is absent or a
non-word character. -/
def scanB (p : List Char → Option Nat) : Option Char → List Char → Option Nat
  | _, [] => none
  | prev, c :: cs =>
    let bOK := match prev with
      | none => true
      | some q => !isWordC q
    match (if bOK then p (c :: cs) else none) with
    | some v => some v
    | none => scanB p (some c) cs

/-- Group 2 of the numeric date pattern: `(0?[1-9]|1[0-2])` followed by
`\b`, alternatives tried in regex order with backtracking. -/
def numMonthHere (cs : List Char) : Option Nat :=
  let a1 : Option Nat :=
    match cs with
    | '0' :: d :: rest => if '1' ≤ d && d ≤ '9' && bEnd rest then some (digitVal d) else none
    | _ => none
  let a2 : Option Nat :=
    match cs with
    | c :: rest => if '1' ≤ c && c ≤ '9' && bEnd rest then some (digitVal c) else none
    | [] => none
  let a3 : Option Nat :=
    match cs with
    | '1' :: d :: rest => if '0' ≤ d && d ≤ '2' && bEnd rest then some (10 + digitVal d) else none
    | _ => none
  (a1 <|> a2) <|> a3

/-- `\s*[/\-.]\s*` then the month group of the numeric date pattern. -/
def numSepMonth (cs : List Char) : Option Nat :=
  match dropWs cs with
  | c :: rest =>
    if c = '/' || c = '-' || c = '.' then numMonthHere (dropWs rest) else none
  | [] => none

/-- `([0-3]?\d)\s*[/\-.]\s*(0?[1-9]|1[0-2])\b` at the current position
(the leading `\b` is checked by the scanner); returns group 2. -/
def numDateHere (cs : List Char) : Option Nat :=
  match cs with
  | c1 :: rest =>
    if isDigitC c1 then
      let two : Option Nat :=
        if '0' ≤ c1 && c1 ≤ '3' then
          match rest with
          | c2 :: rest2 => if isDigitC c2 then numSepMonth rest2 else none
          | [] => none
        else none
      match two with
      | some v => some v
      | none => numSepMonth rest
    else none
  | [] => none

/-- `-?end`. -/
def optDashEnd (cs : List Char) : Bool :=
  (match cs with
   | '-' :: rest => (matchLit "end".data rest).isSome
   | _ => false) ||
  (matchLit "end".data cs).isSome

/-- `[-\s]?end`. -/
def optSepEnd (cs : List Char) : Bool :=
  (match cs with
   | c :: rest => if c = '-' || isWsC c then (matchLit "end".data rest).isSome else false
   | [] => false) ||
  (matchLit "end".data cs).isSome

/-- `(?:fye|fy-?end|year[-\s]?end)`. -/
def anchorAt (cs : List Char) : Bool :=
  (matchLit "fye".data cs).isSome ||
  (match matchLit "fy".data cs with
   | some r => optDashEnd r
   | none => false) ||
  (match matchLit "year".data cs with
   | some r => optSepEnd r
   | none => false)

/-- `(\d+)\s*(?:month|months)\s+after\s+(?:fye|fy-?end|year[-\s]?end)`
at the current position; returns group 1 as a number. -/
def relHere (cs : List Char) : Option Nat :=
  match cs with
  | c :: _ =>
    if isDigitC c then
      let p := takeDigits cs
      let r := dropWs p.2
      if altThen ["month", "months"] r (fun r2 =>
           match matchWs1 r2 with
           | none => false
           | some r3 =>
             match thenWs1 (matchLit "after".data r3) with
             | none => false
             | some r4 => anchorAt r4)
      then some (natOfDigits p.1) else none
    else none
  | [] => none

/-- `\b31\s*[/\-.]\s*12\b` at the current position (leading `\b`
checked by the scanner). -/
def dec3112Here (cs : List Char) : Option Nat :=
  match matchLit "31".data cs with
  | none => none
  | some r =>
    match dropWs r with
    | c :: rest =>
      if c = '/' || c = '-' || c = '.' then
        match matchLit "12".data (dropWs rest) with
        | some r2 => if bEnd r2 then some 12 else none
        | none => none
      else none
    | [] => none

/-- A calendar date (proleptic Gregorian), as `datetime.date`. -/
structure Date where
  year : Int
  month : Nat
  day : Nat
deriving DecidableEq, Repr

/-- Gregorian leap-year test. -/
def isLeap (y : Int) : Bool := y % 4 = 0 && (y % 100 ≠ 0 || y % 400 = 0)

/-- Number of days in a month. -/
def daysInMonth (y : Int) (m : Nat) : Nat :=
  if m = 1 then 31 else if m = 2 then (if isLeap y then 29 else 28)
  else if m = 3 then 31 else if m = 4 then 30 else if m = 5 then 31
  else if m = 6 then 30 else if m = 7 then 31 else if m = 8 then 31
  else if m = 9 then 30 else if m = 10 then 31 else if m = 11 then 30
  else if m = 12 then 31 else 0

/-- `datetime(year, month, day)`: `none` models the `ValueError` raised
outside calendar bounds or `datetime`'s year range 1..9999. -/
def mkDate? (y m d : Int) : Option Date :=
  if 1 ≤ y ∧ y ≤ 9999 ∧ 1 ≤ m ∧ m ≤ 12 ∧ 1 ≤ d ∧ d ≤ (daysInMonth y m.toNat : Int) then
    some ⟨y, m.toNat, d.toNat⟩
  else none

/-- All characters are digits and the list is non-empty. -/
def allDigitsL (cs : List Char) : Bool := cs.length > 0 && cs.all isDigitC

/-- Parse an ISO `YYYY-MM-DD` date, validating the calendar; models both
`datetime.strptime(s, "%Y-%m-%d")` and `datetime.fromisoformat` on the
date-only strings this program passes around (failure raises, caught by
the callers, hence `none`). -/
def parseDate? (s : String) : Option Date :=
  match splitCh '-' s.data with
  | [ys, ms, ds] =>
    if allDigitsL ys && ys.length = 4 && allDigitsL ms && ms.length ≤ 2
        && allDigitsL ds && ds.length ≤ 2 then
      mkDate? (natOfDigits ys) (natOfDigits ms) (natOfDigits ds)
    else none
  | _ => none

/-- `datetime.fromisoformat(fye_str) if fye_str else None`, with the
parse failure absorbed to `None` by the caller's `try`. -/
def fyeParse (s : String) : Option Date := if s = "" then none else parseDate? s

/-- `_month_from_text` from `compile_rules.py`: resolve a calendar month
(1..12) from free text, given the fiscal-year-end string. -/
def month_from_text (text : String) (fye_str : String) : Option Nat :=
  if text = "" then none
  else
    let t := strLower text
    let cs := t.data
    if containsStr t "upon request" || containsStr t "not applicable" then none
    else
      match scanB monthHere none cs with
      | some m => some m
      | none =>
        match scanB numDateHere none cs with
        | some m => some m
        | none =>
          match searchSome relHere cs, fyeParse fye_str with
          | some offset, some f => some (((f.month - 1 + offset) % 12) + 1)
          | _, _ =>
            match fyeParse fye_str with
            | some f =>
              if containsStr t "year-end" || containsStr t "year end" ||
                 containsStr t "fy-end" || containsStr t "fy end" then some f.month
              else if (scanB dec3112Here none cs).isSome then some 12
              else none
            | none => if (scanB dec3112Here none cs).isSome then some 12 else none

/-- A pandas cell value as the Python code observes it: `pynone` is
Python `None` (what `.get` returns for an absent key), `nan` a missing
value in a present column, `str` a string cell, `int` an integral
numeric cell.  (Fractional numeric cells do not occur in the columns
the claims touch and are not modelled.) -/
inductive Cell
  | pynone
  | nan
  | str (s : String)
  | int (n : Int)
deriving DecidableEq, Repr

/-- Python truthiness of a cell value (`None` and `""` and `0` are
falsy; note `float('nan')` is truthy). -/
def Cell.truthy : Cell → Bool
  | .pynone => false
  | .nan => true
  | .str s => s ≠ ""
  | .int n => n ≠ 0

/-- `pd.isna` on a cell value. -/
def Cell.isna : Cell → Bool
  | .pynone => true
  | .nan => true
  | _ => false

/-- Python `x or y` on cell values. -/
def cellOr (a b : Cell) : Cell := if a.truthy then a else b

/-- Python `str(x)` on a cell value. -/
def Cell.pyStr : Cell → String
  | .pynone => "None"
  | .nan => "nan"
  | .str s => s
  | .int n => toString n

/-- Drop leading whitespace characters. -/
def trimL : List Char → List Char
  | [] => []
  | c :: cs => if isWsC c then trimL cs else c :: cs

/-- Python `str.strip()` (ASCII whitespace). -/
def strTrim (s : String) : String :=
  String.mk (trimL (trimL s.data).reverse).reverse

/-- `clean` from both sources: missing values become `""`, anything
else becomes `str(x).strip()`. -/
def clean (x : Cell) : String :=
  if x.isna then "" else strTrim x.pyStr

/-- A spreadsheet row: association list from column name to cell.
`get` mirrors `Series.get`, which returns `None` for an absent key. -/
abbrev Row := List (String × Cell)

/-- `r.get(k)`. -/
def Row.get (r : Row) (k : String) : Cell :=
  match r.find? (fun e => e.1 = k) with
  | some e => e.2
  | none => .pynone

/-- Parse a Python `float(...)` literal of the form
`[+-]?digits[.digits]` (whitespace-trimmed) as an exact rational.
Other accepted float syntaxes (exponents, `inf`, `nan`) do not occur in
this data and yield `none`, matching the callers' exception-to-`None`
handling of non-numeric text. -/
def decParse? (s : String) : Option Rat :=
  let t := (trimL (trimL s.data).reverse).reverse
  let sb : Int × List Char :=
    match t with
    | '-' :: rest => (-1, rest)
    | '+' :: rest => (1, rest)
    | _ => (1, t)
  match splitCh '.' sb.2 with
  | [a] =>
    if allDigitsL a then some ((sb.1 * (natOfDigits a : Int) : Int) : Rat) else none
  | [a, b] =>
    if (a.length > 0 || b.length > 0) && a.all isDigitC && b.all isDigitC then
      some ((sb.1 : Rat) *
        ((natOfDigits a : Rat) + (natOfDigits b : Rat) / ((10 : Rat) ^ b.length)))
    else none
  | _ => none

/-- `as_int` from `compile_rules2.py`: `int(float(x))`, with failures
(empty string, missing value, non-numeric text) becoming `None`.
`Int.tdiv` truncates toward zero exactly as Python `int()` does. -/
def as_int (x : Cell) : Option Int :=
  match x with
  | .str s => if s = "" then none else (decParse? s).map (fun q => Int.tdiv q.num (q.den : Int))
  | .int n => some n
  | .pynone => none
  | .nan => none

/-- `as_float` from `compile_rules2.py`, as an exact rational. -/
def as_float (x : Cell) : Option Rat :=
  match x with
  | .str s => if s = "" then none else decParse? s
  | .int n => some (n : Rat)
  | .pynone => none
  | .nan => none

/-- `calendar.month_abbr` (index 0 is empty). -/
def monthAbbrs : List String :=
  ["", "Jan", "Feb", "Mar", "Apr", "May", "Jun", "Jul", "Aug", "Sep",
   "Oct", "Nov", "Dec"]

/-- `calendar.month_name` (index 0 is empty). -/
def monthNames : List String :=
  ["", "January", "February", "March", "April", "May", "June", "July",
   "August", "September", "October", "November", "December"]

/-- Python truthiness of an optional integer (`None` and `0` falsy). -/
def optIntTruthy : Option Int → Bool
  | some v => v ≠ 0
  | none => false

/-- `month_name` from `compile_rules2.py`:
`calendar.month_abbr[m] if m and 1 <= m <= 12 else ""`. -/
def month_name (m : Option Int) : String :=
  match m with
  | some v => if v ≠ 0 ∧ 1 ≤ v ∧ v ≤ 12 then monthAbbrs.getD v.toNat "" else ""
  | none => ""

/-- The output dictionary shared by `pack_deadline_row`,
`pack_form_row` and `pack_cbcr_row` (and enriched by the CIT
calculator).  Fields a given packer does not write keep their defaults,
mirroring keys absent from the corresponding Python dict, which the
code never reads. -/
structure Rec where
  group_id : String := ""
  seq : Int := 0
  requirement_type : String := ""
  deadline_kind : String := ""
  month : Option Int := none
  day : Option Int := none
  month_name : String := ""
  event_anchor : String := ""
  offset_days : Option Int := none
  offset_months : Option Int := none
  text : String := ""
  doc_type : String := ""
  name : String := ""
  included_in_return : String := ""
  required : String := ""
  included_in_cit : String := ""
  annual : String := ""
  single_filer_ok : String := ""
  calculated_date : Option String := none
deriving DecidableEq, Repr

/-- `pack_deadline_row` from `compile_rules2.py`. -/
def pack_deadline_row (r : Row) : Rec :=
  let m := as_int (r.get "Month")
  { group_id := clean (r.get "GroupID")
    seq := (as_int (r.get "Seq")).getD 0
    requirement_type := clean (r.get "RequirementType")
    deadline_kind := clean (r.get "DeadlineKind")
    month := m
    day := as_int (r.get "Day")
    month_name := if optIntTruthy m then month_name m else ""
    event_anchor := clean (r.get "EventAnchor")
    offset_days := as_int (r.get "OffsetDays")
    offset_months := as_int (r.get "OffsetMonths")
    text := clean (r.get "DisplayText") }

/-- `pack_form_row` from `compile_rules2.py`. -/
def pack_form_row (r : Row) : Rec :=
  { pack_deadline_row r with
    name := clean (r.get "FormName")
    included_in_return := clean (r.get "IncludedInReturn") }

/-- `pack_cbcr_row` from `compile_rules2.py`. -/
def pack_cbcr_row (r : Row) : Rec :=
  let m := as_int (r.get "Month")
  { required := clean (r.get "Required")
    requirement_type := clean (r.get "RequirementType")
    included_in_cit := clean (r.get "IncludedInCITReturn")
    annual := clean (r.get "AnnualNotification")
    single_filer_ok := clean (r.get "SingleFilerAllowed")
    deadline_kind := clean (r.get "DeadlineKind")
    month := m
    day := as_int (r.get "Day")
    month_name := if optIntTruthy m then month_name m else ""
    event_anchor := clean (r.get "EventAnchor")
    offset_days := as_int (r.get "OffsetDays")
    offset_months := as_int (r.get "OffsetMonths")
    text := clean (r.get "DisplayText") }

/-- A packed threshold row. -/
structure ThresholdRec where
  group_id : String := ""
  seq : Int := 0
  requirement_applies : String := ""
  op : String := ""
  amount : Option Rat := none
  currency : String := ""
  metric : String := ""
  metric_basis : String := ""
  note : String := ""
  is_applicable : Bool := true
  doc_type : String := ""
deriving DecidableEq, Repr

/-- `RequirementStatus.YES_VALUES`. -/
def YES_VALUES : List String := ["yes", "y", "true", "1"]

/-- `pack_threshold_row` from `compile_rules2.py`. -/
def pack_threshold_row (r : Row) : ThresholdRec :=
  let requirement_applies := clean (r.get "RequirementApplies")
  { group_id := clean (r.get "GroupID")
    seq := (as_int (r.get "Seq")).getD 0
    requirement_applies := requirement_applies
    op := clean (r.get "ThresholdOperator")
    amount := as_float (r.get "ThresholdAmount")
    currency := clean (r.get "ThresholdCurrency")
    metric := clean (r.get "ThresholdMetric")
    metric_basis := clean (r.get "MetricBasisText")
    note := clean (r.get "DisplayNote")
    is_applicable :=
      if requirement_applies ≠ "" then
        !(["no", "n", "n/a", "false", "0"].contains (strLower requirement_applies))
      else true }

/-- Python truthiness of an optional amount (`None` and `0.0` falsy). -/
def optRatTruthy : Option Rat → Bool
  | some q => q ≠ 0
  | none => false

/-- `validate_threshold_data` from `compile_rules2.py` (the `debug`
print is dropped). -/
def validate_threshold_data (row : ThresholdRec) : Bool :=
  if YES_VALUES.contains (strLower row.requirement_applies) then
    if row.op ≠ "" && !optRatTruthy row.amount then false else true
  else true

/-- A packed CIT (corporate tax) deadline row. -/
structure CitRec where
  group_id : String := ""
  seq : Int := 0
  taxpayer_type : String := ""
  condition_metric : String := ""
  condition_op : String := ""
  condition_value : Option Rat := none
  deadline_kind : String := ""
  month : Option Int := none
  day : Option Int := none
  month_name : String := ""
  offset_months : Option Int := none
  offset_days : Option Int := none
  text : String := ""
deriving DecidableEq, Repr

/-- `pack_cit_row` from `compile_rules2.py` (cell-level `or` chains and
the `"N/A"` screens translated literally). -/
def pack_cit_row (r : Row) : CitRec :=
  let m := as_int (r.get "Month")
  let offset_months_val :=
    cellOr (cellOr (r.get "OffsetMonths") (r.get "Offset Months")) (r.get "offset_months")
  let offset_days_val :=
    cellOr (cellOr (r.get "OffsetDays") (r.get "Offset Days")) (r.get "offset_days")
  { group_id := clean (cellOr (cellOr (r.get "GroupID") (r.get "Group ID")) (r.get "group_id"))
    seq := (as_int (r.get "Seq")).getD 0
    taxpayer_type :=
      clean (cellOr (cellOr (r.get "TaxpayerType") (r.get "Taxpayer Type")) (r.get "taxpayer_type"))
    condition_metric :=
      if strUpper (strTrim (r.get "ConditionMetric").pyStr) ≠ "N/A" then
        clean (cellOr (r.get "ConditionMetric") (r.get "Condition Metric"))
      else ""
    condition_op :=
      if strUpper (strTrim (r.get "ConditionOperator").pyStr) ≠ "N/A" then
        clean (cellOr (r.get "ConditionOperator") (r.get "Condition Operator"))
      else ""
    condition_value :=
      if strUpper (strTrim (r.get "ConditionValue").pyStr) ≠ "N/A" then
        as_float (cellOr (r.get "ConditionValue") (r.get "Condition Value"))
      else none
    deadline_kind :=
      clean (cellOr (cellOr (r.get "DeadlineKind") (r.get "Deadline Kind")) (r.get "deadline_kind"))
    month := m
    day := as_int (r.get "Day")
    month_name := if optIntTruthy m then month_name m else ""
    offset_months :=
      if strUpper (strTrim offset_months_val.pyStr) ≠ "N/A" then as_int offset_months_val else none
    offset_days :=
      if strUpper (strTrim offset_days_val.pyStr) ≠ "N/A" then as_int offset_days_val else none
    text :=
      clean (cellOr (cellOr (r.get "DisplayText") (r.get "Display Text")) (r.get "display_text")) }

/-- Days-from-civil for the proleptic Gregorian calendar (standard
era-based algorithm), used to model `timedelta` day arithmetic. -/
def toRD (dt : Date) : Int :=
  let y : Int := if dt.month ≤ 2 then dt.year - 1 else dt.year
  let era : Int := Int.fdiv y 400
  let yoe : Int := y - era * 400
  let mp : Int := Int.fmod ((dt.month : Int) + 9) 12
  let doy : Int := Int.fdiv (153 * mp + 2) 5 + (dt.day : Int) - 1
  let doe : Int := yoe * 365 + Int.fdiv yoe 4 - Int.fdiv yoe 100 + doy
  era * 146097 + doe - 719468

/-- Civil-from-days, inverse of `toRD`. -/
def ofRD (z0 : Int) : Date :=
  let z := z0 + 719468
  let era := Int.fdiv z 146097
  let doe := z - era * 146097
  let yoe := Int.fdiv (doe - Int.fdiv doe 1460 + Int.fdiv doe 36524 - Int.fdiv doe 146096) 365
  let y := yoe + era * 400
  let doy := doe - (365 * yoe + Int.fdiv yoe 4 - Int.fdiv yoe 100)
  let mp := Int.fdiv (5 * doy + 2) 153
  let d := doy - Int.fdiv (153 * mp + 2) 5 + 1
  let m := if mp < 10 then mp + 3 else mp - 9
  { year := if m ≤ 2 then y + 1 else y, month := m.toNat, day := d.toNat }

/-- `date + timedelta(days=k)`. -/
def addDays (dt : Date) (k : Int) : Date := ofRD (toRD dt + k)

/-- The month shift of `relativedelta(months=m)`: shift year/month and
clamp the day to the target month's length. -/
def addMonthsClamp (dt : Date) (m : Int) : Date :=
  let tot : Int := dt.year * 12 + ((dt.month : Int) - 1) + m
  let y := Int.fdiv tot 12
  let mo := (Int.fmod tot 12).toNat + 1
  { year := y, month := mo, day := min dt.day (daysInMonth y mo) }

/-- `date + relativedelta(months=m, days=d)`: the month shift first
(with day clamping), then the day shift. -/
def relAdd (dt : Date) (m d : Int) : Date := addDays (addMonthsClamp dt m) d

/-- Left-pad a number to two digits. -/
def pad2 (n : Nat) : String := if n < 10 then "0" ++ toString n else toString n

/-- `%Y`: four-digit zero-padded year (CPython behaviour within
`datetime`'s year range 1..9999). -/
def pad4 (y : Int) : String :=
  let s := toString y.toNat
  String.mk (List.replicate (4 - s.length) '0') ++ s

/-- `strftime("%Y-%m-%d")`. -/
def fmtISO (dt : Date) : String :=
  pad4 dt.year ++ "-" ++ pad2 dt.month ++ "-" ++ pad2 dt.day

/-- `strftime("%B %d, %Y")`. -/
def fmtLong (dt : Date) : String :=
  monthNames.getD dt.month "" ++ " " ++ pad2 dt.day ++ ", " ++ pad4 dt.year

/-- The `tax_return_indicators` list of `calculate_deadline_from_cit`. -/
def tax_return_indicators : List String :=
  ["RETURN_DUE_DATE", "TAX_RETURN", "CIT_RETURN",
   "CORPORATE_TAX", "WITH_RETURN", "FILING_DATE", "TAX_FILING"]

/-- `is_tax_return_based` of `calculate_deadline_from_cit`: the
deadline kind is an indicator, the anchor text contains one, or the
display text mentions "tax return". -/
def is_tax_return_based (deadline_info : Rec) : Bool :=
  tax_return_indicators.contains (strUpper deadline_info.deadline_kind) ||
  tax_return_indicators.any
    (fun ind => containsStr (strUpper deadline_info.event_anchor) ind) ||
  containsStr (strLower deadline_info.text) "tax return"

/-- `calculate_deadline_from_cit` from `compile_rules2.py`.  `nowYear`
stands for `datetime.now().year`, read only when no fiscal-year-end is
supplied (the compiler's second pass never reaches that branch, since
it runs only under a non-empty `fye`); `relativedelta` is assumed
importable, and a packed record is never the empty dict, so the
corresponding guards are not modelled. -/
def calculate_deadline_from_cit (deadline_info : Rec) (cit_deadlines : List CitRec)
    (fye : String) (nowYear : Int) : Rec :=
  match cit_deadlines with
  | [] => deadline_info
  | cit_deadline :: _ =>
    if !is_tax_return_based deadline_info then deadline_info
    else
      let cit_kind := strUpper cit_deadline.deadline_kind
      let cit_date : Option Date :=
        if cit_kind = "FIXED_DATE" then
          match cit_deadline.month, cit_deadline.day with
          | some month, some day =>
            if month ≠ 0 ∧ day ≠ 0 then
              match (if fye ≠ "" then (parseDate? fye).map (fun f => f.year + 1)
                     else some (nowYear + 1)) with
              | some year => mkDate? year month day
              | none => none
            else none
          | _, _ => none
        else if cit_kind = "FYE_RELATIVE" ∧ fye ≠ "" then
          (parseDate? fye).map (fun f =>
            relAdd f (cit_deadline.offset_months.getD 0) (cit_deadline.offset_days.getD 0))
        else none
      match cit_date with
      | none => deadline_info
      | some cd =>
        let tp_offset_months := deadline_info.offset_months.getD 0
        let tp_offset_days := deadline_info.offset_days.getD 0
        if tp_offset_months = 0 ∧ tp_offset_days = 0 then
          { deadline_info with
            calculated_date := some (fmtISO cd)
            month := some (cd.month : Int)
            day := some (cd.day : Int)
            month_name := monthAbbrs.getD cd.month ""
            text := if deadline_info.text = "" then
                "Due with tax return (" ++ fmtLong cd ++ ")"
              else deadline_info.text }
        else
          let cd2 := relAdd cd tp_offset_months tp_offset_days
          { deadline_info with
            calculated_date := some (fmtISO cd2)
            month := some (cd2.month : Int)
            day := some (cd2.day : Int)
            month_name := monthAbbrs.getD cd2.month ""
            text := if deadline_info.text = "" then
                toString tp_offset_months ++ "m " ++ toString tp_offset_days ++
                  "d after tax return (" ++ fmtLong cd2 ++ ")"
              else deadline_info.text }

/-- Python string `<` (lexicographic by code point), as a Boolean over
character lists. -/
def charListLt : List Char → List Char → Bool
  | [], [] => false
  | [], _ :: _ => true
  | _ :: _, [] => false
  | a :: as, b :: bs =>
    if a.toNat < b.toNat then true
    else if b.toNat < a.toNat then false
    else charListLt as bs

/-- Python `a < b` on strings. -/
def strLtB (a b : String) : Bool := charListLt a.data b.data

/-- Python tuple comparison `(r1, n1) <= (r2, n2)` for string pairs. -/
def pairLeB (a b : String × String) : Bool :=
  strLtB a.1 b.1 || (a.1 = b.1 && (strLtB a.2 b.2 || a.2 = b.2))

/-- Python tuple comparison for the `(group_id, seq)` sort key. -/
def grpKeyLeB (a b : String × Int) : Bool :=
  strLtB a.1 b.1 || (a.1 = b.1 && a.2 ≤ b.2)

/-- A string-keyed dictionary preserving insertion order; `set` mirrors
Python dict assignment (overwrite in place, or append on a new key). -/
abbrev Smap := List (String × String)

/-- Dict lookup. -/
def Smap.get? (m : Smap) (k : String) : Option String :=
  match m.find? (fun e => e.1 = k) with
  | some e => some e.2
  | none => none

/-- Dict assignment. -/
def Smap.set (m : Smap) (k v : String) : Smap :=
  if (m.find? (fun e => e.1 = k)).isSome then
    m.map (fun e => if e.1 = k then (k, v) else e)
  else m ++ [(k, v)]

/-- The per-country record created by `ensure_country` in
`compile_rules2.py`. -/
structure Country where
  name : String
  region : String
  lf_tpd_thresholds : List ThresholdRec := []
  lf_tpd_deadlines : List Rec := []
  mf_thresholds : List ThresholdRec := []
  mf_deadlines : List Rec := []
  tp_forms : List Rec := []
  cbcr : Option Rec := none
  cit_deadlines : List CitRec := []
deriving DecidableEq, Repr

/-- The `countries` dict: an insertion-ordered association list keyed
by the lowercased canonical country name. -/
abbrev Registry := List (String × Country)

/-- Mutate the entry at key `k` in place (Python mutates the dict value
through the reference returned by `ensure_country`). -/
def Registry.modify (reg : Registry) (k : String) (f : Country → Country) : Registry :=
  reg.map (fun e => if e.1 = k then (e.1, f e.2) else e)

/-- A parsed sheet as `norm_cols` leaves it: the (normalised) column
names plus rows keyed by them. -/
structure CountryTable where
  cols : List String
  rows : List Row

/-- `find_col`: first case-insensitive exact match, else the first
column containing any candidate as a substring. -/
def find_col (cols : List String) (cands : List String) : Option String :=
  let lc : Smap := cols.foldl (fun m c => m.set (strLower c) c) []
  match cands.findSome? (fun cand => lc.get? (strLower cand)) with
  | some c => some c
  | none =>
    cols.findSome? (fun c =>
      if cands.any (fun cand => containsStr (strLower c) (strLower cand)) then some c
      else none)

/-- `r.get(col)` where the column may be absent (`None`). -/
def Row.getOpt (r : Row) (c : Option String) : Cell :=
  match c with
  | some k => r.get k
  | none => .pynone

/-- `load_country_map` from `compile_rules2.py`: build the
name-and-code-to-region map and the code-to-name map; `none` models the
`ValueError` raised when no country column exists. -/
def load_country_map (t : CountryTable) : Option (Smap × Smap) :=
  let cols := t.cols.map strTrim
  let country_col := find_col cols ["Country", "Jurisdiction"]
  let code3_col := find_col cols ["Code_3", "Code 3", "Code3", "ISO3", "ISO_3", "ISO-3"]
  let region_col := find_col cols ["Region"]
  match country_col with
  | none => none
  | some cc =>
    some (t.rows.foldl (fun acc r =>
      let nm := clean (r.get cc)
      let code3 := match code3_col with
        | some c3 => clean (r.get c3)
        | none => ""
      let reg := clean (r.getOpt region_col)
      if reg ≠ "" then
        let n2r := if nm ≠ "" then acc.1.set (strLower nm) reg else acc.1
        let n2r2 := if code3 ≠ "" then n2r.set (strLower code3) reg else n2r
        let c2n := if code3 ≠ "" then acc.2.set (strUpper code3) nm else acc.2
        (n2r2, c2n)
      else acc) (([], []) : Smap × Smap))

/-- `ensure_country` from `compile_rules2.py`: resolve a jurisdiction
token to a registry key (translating a known 3-letter code to its full
name first), creating the country entry on first use.  Returns the
possibly-extended registry and the key — `none` only for a falsy token.
Dict mutation through the returned reference is modelled by
`Registry.modify` at the returned key. -/
def ensure_country (registry : Registry) (j_value : String)
    (name_to_region code_to_name : Smap) : Registry × Option String :=
  if j_value = "" then (registry, none)
  else
    let nm := strTrim j_value
    let full_name := (code_to_name.get? (strUpper nm)).getD nm
    let key := strLower full_name
    if (registry.find? (fun e => e.1 = key)).isSome then (registry, some key)
    else
      let region := (name_to_region.get? (strLower nm)).getD ""
      (registry ++ [(key, { name := full_name, region := region })], some key)

/-- `clean(r.get("DocTypeNormalized") or dflt)`. -/
def docType (r : Row) (dflt : String) : String :=
  clean (cellOr (r.get "DocTypeNormalized") (Cell.str dflt))

/-- State threaded through the ingestion loops: the registry and the
`unmatched` diagnostic set (insertion-ordered, duplicate-free). -/
abbrev IngestSt := Registry × List String

/-- `unmatched.add(j)`. -/
def addUnmatched (u : List String) (j : String) : List String :=
  if u.contains j then u else u ++ [j]

/-- One row of the LF/TPD thresholds loop. -/
def lfThStep (maps : Smap × Smap) (st : IngestSt) (r : Row) : IngestSt :=
  let j := clean (r.get "Jurisdiction")
  match ensure_country st.1 j maps.1 maps.2 with
  | (reg, none) => (reg, addUnmatched st.2 j)
  | (reg, some k) =>
    let row := { pack_threshold_row r with doc_type := docType r "LF" }
    if validate_threshold_data row then
      (reg.modify k (fun c => { c with lf_tpd_thresholds := c.lf_tpd_thresholds ++ [row] }),
       st.2)
    else (reg, st.2)

/-- One row of the LF/TPD deadlines loop. -/
def lfDlStep (maps : Smap × Smap) (st : IngestSt) (r : Row) : IngestSt :=
  let j := clean (r.get "Jurisdiction")
  match ensure_country st.1 j maps.1 maps.2 with
  | (reg, none) => (reg, addUnmatched st.2 j)
  | (reg, some k) =>
    let row := { pack_deadline_row r with doc_type := docType r "LF" }
    (reg.modify k (fun c => { c with lf_tpd_deadlines := c.lf_tpd_deadlines ++ [row] }), st.2)

/-- One row of the MF thresholds loop. -/
def mfThStep (maps : Smap × Smap) (st : IngestSt) (r : Row) : IngestSt :=
  let j := clean (r.get "Jurisdiction")
  match ensure_country st.1 j maps.1 maps.2 with
  | (reg, none) => (reg, addUnmatched st.2 j)
  | (reg, some k) =>
    let row := { pack_threshold_row r with doc_type := docType r "MF" }
    if validate_threshold_data row then
      (reg.modify k (fun c => { c with mf_thresholds := c.mf_thresholds ++ [row] }), st.2)
    else (reg, st.2)

/-- One row of the MF deadlines loop. -/
def mfDlStep (maps : Smap × Smap) (st : IngestSt) (r : Row) : IngestSt :=
  let j := clean (r.get "Jurisdiction")
  match ensure_country st.1 j maps.1 maps.2 with
  | (reg, none) => (reg, addUnmatched st.2 j)
  | (reg, some k) =>
    let row := { pack_deadline_row r with doc_type := docType r "MF" }
    (reg.modify k (fun c => { c with mf_deadlines := c.mf_deadlines ++ [row] }), st.2)

/-- One row of the TP forms loop. -/
def formsStep (maps : Smap × Smap) (st : IngestSt) (r : Row) : IngestSt :=
  let j := clean (r.get "Jurisdiction")
  match ensure_country st.1 j maps.1 maps.2 with
  | (reg, none) => (reg, addUnmatched st.2 j)
  | (reg, some k) =>
    let row := { pack_form_row r with doc_type := docType r "Fm" }
    (reg.modify k (fun c => { c with tp_forms := c.tp_forms ++ [row] }), st.2)

/-- Does a packed CbCR row qualify for storage (`required` or
`included_in_cit` is a yes-value)? -/
def cbcrQualifies (row : Rec) : Bool :=
  YES_VALUES.contains (strLower row.required) ||
  YES_VALUES.contains (strLower row.included_in_cit)

/-- One row of the CbCR notifications loop: a non-qualifying row is
skipped, a qualifying one overwrites the country's single `cbcr` slot
(last one wins). -/
def cbcrStep (maps : Smap × Smap) (st : IngestSt) (r : Row) : IngestSt :=
  let j := clean (r.get "Jurisdiction")
  match ensure_country st.1 j maps.1 maps.2 with
  | (reg, none) => (reg, addUnmatched st.2 j)
  | (reg, some k) =>
    let row := pack_cbcr_row r
    if !cbcrQualifies row then (reg, st.2)
    else (reg.modify k (fun c => { c with cbcr := some row }), st.2)

/-- One row of the CIT deadlines loop: the jurisdiction comes from the
`"Jurisdiction (3-letter code)"` column and is resolved against the
already-built registry by full name, falling back to the raw code as a
key; unmatched rows are skipped (this loop does no unmatched
tracking). -/
def citStep (code_to_name : Smap) (countries : Registry) (r : Row) : Registry :=
  let j := clean (r.get "Jurisdiction (3-letter code)")
  if j = "" then countries
  else
    let full_country_name := (code_to_name.get? (strUpper j)).getD j
    let found : Option String :=
      match countries.find? (fun e => e.2.name = full_country_name) with
      | some e => some e.1
      | none =>
        match countries.find? (fun e => e.1 = strLower j) with
        | some e => some e.1
        | none => none
    match found with
    | none => countries
    | some k =>
      countries.modify k
        (fun c => { c with cit_deadlines := c.cit_deadlines ++ [pack_cit_row r] })

/-- `sort_group` from `compile_rules2.py`:
`sorted(items, key=lambda x: (group_id, seq))` — a stable sort by the
group key (insertion sort is stable, like Python's sort). -/
def sort_group {α : Type} (key : α → String × Int) (items : List α) : List α :=
  List.insertionSort (fun x y => grpKeyLeB (key x) (key y) = true) items

/-- Sort every record group of a country (the loop just before the CIT
enhancement pass; `cbcr` is a single object and is not sorted). -/
def sortCountryGroups (c : Country) : Country :=
  { c with
    lf_tpd_thresholds := sort_group (fun x => (x.group_id, x.seq)) c.lf_tpd_thresholds
    lf_tpd_deadlines := sort_group (fun x => (x.group_id, x.seq)) c.lf_tpd_deadlines
    mf_thresholds := sort_group (fun x => (x.group_id, x.seq)) c.mf_thresholds
    mf_deadlines := sort_group (fun x => (x.group_id, x.seq)) c.mf_deadlines
    tp_forms := sort_group (fun x => (x.group_id, x.seq)) c.tp_forms
    cit_deadlines := sort_group (fun x => (x.group_id, x.seq)) c.cit_deadlines }

/-- The second pass (`if relativedelta and fye:`): enhance the TP
deadline records of every country that has CIT deadlines. -/
def enhance (fye : String) (reg : Registry) : Registry :=
  if fye = "" then reg
  else
    reg.map (fun e =>
      if e.2.cit_deadlines = [] then e
      else
        (e.1, { e.2 with
          lf_tpd_deadlines := e.2.lf_tpd_deadlines.map
            (fun d => calculate_deadline_from_cit d e.2.cit_deadlines fye 0)
          mf_deadlines := e.2.mf_deadlines.map
            (fun d => calculate_deadline_from_cit d e.2.cit_deadlines fye 0)
          tp_forms := e.2.tp_forms.map
            (fun d => calculate_deadline_from_cit d e.2.cit_deadlines fye 0)
          cbcr := e.2.cbcr.map
            (fun d => calculate_deadline_from_cit d e.2.cit_deadlines fye 0) }))

/-- The country ordering of the final document:
`key=lambda x: (x["region"], x["name"].lower())` — the region is
compared exactly (case-sensitively); only the name is lowercased. -/
def countryLeB (a b : Country) : Bool :=
  pairLeB (a.region, strLower a.name) (b.region, strLower b.name)

/-- `countryLeB` as a relation, for `List.insertionSort`. -/
def countryLe (a b : Country) : Prop := countryLeB a b = true

instance : DecidableRel countryLe := fun a b =>
  inferInstanceAs (Decidable (countryLeB a b = true))

/-- `sorted(countries.values(), key=...)`. -/
def finalCountries (reg : Registry) : List Country :=
  List.insertionSort countryLe (reg.map (fun e => e.2))

/-- The compiled document (the generation timestamp and the spreadsheet
path are environment metadata, not modelled). -/
structure Doc where
  fye : String
  countries : List Country
deriving DecidableEq, Repr

/-- `compile_rules` from `compile_rules2.py`, over already-loaded
sheets (spreadsheet I/O is out of scope: the required-sheet existence
check happens during loading, and an absent optional CIT sheet is the
empty list).  Returns the document plus the `unmatched` diagnostic set;
`none` models the `ValueError` from `load_country_map`. -/
def compile_rules (df_countries : CountryTable)
    (df_lf_th df_lf_dl df_mf_th df_mf_dl df_forms df_cbcr df_cit : List Row)
    (fye : String) : Option (Doc × List String) :=
  match load_country_map df_countries with
  | none => none
  | some maps =>
    let st0 : IngestSt := ([], [])
    let st1 := df_lf_th.foldl (lfThStep maps) st0
    let st2 := df_lf_dl.foldl (lfDlStep maps) st1
    let st3 := df_mf_th.foldl (mfThStep maps) st2
    let st4 := df_mf_dl.foldl (mfDlStep maps) st3
    let st5 := df_forms.foldl (formsStep maps) st4
    let st6 := df_cbcr.foldl (cbcrStep maps) st5
    let reg1 := df_cit.foldl (citStep maps.2) st6.1
    let reg2 := reg1.map (fun e => (e.1, sortCountryGroups e.2))
    let reg3 := enhance fye reg2
    some ({ fye := fye, countries := finalCountries reg3 }, st6.2)

/-- The per-country record of `compile_rules.py` (the first-generation
compiler).  Only the identity fields are modelled: the per-category
lists start empty at creation and no claim touches their contents in
this source. -/
structure Country1 where
  name : String
  iso2 : String
  region : String
deriving DecidableEq, Repr

/-- The first-generation registry. -/
abbrev Registry1 := List (String × Country1)

/-- `ensure_country` from `compile_rules.py`: returns no record unless
the cleaned lowercased token is a key of the ISO-code map. -/
def ensure_country1 (registry : Registry1) (name_to_iso name_to_region : Smap)
    (j_name : String) : Registry1 × Option String :=
  let key := strLower (strTrim j_name)
  if key = "" then (registry, none)
  else
    match name_to_iso.get? key with
    | none => (registry, none)
    | some iso =>
      if (registry.find? (fun e => e.1 = key)).isSome then (registry, some key)
      else
        (registry ++ [(key, { name := strTrim j_name, iso2 := iso,
                              region := (name_to_region.get? key).getD "" })],
         some key)

/-- C3 amended: the packed month equals the integer parsed from the
source row's Month column verbatim (null when missing or unparseable);
`pack_deadline_row` performs no range check, so the field is 1..12
precisely when the source value is. -/
theorem C3_month_passthrough (r : Row) :
    (pack_deadline_row r).month = as_int (Row.get r "Month") := rfl

/-- C3 counterexample: a source row with `Month = 0` packs to a
deadline record whose month is `some 0` — neither null nor in 1..12,
contradicting the claimed invariant. -/
theorem C3_month_counterexample :
    (pack_deadline_row [("Month", Cell.int 0)]).month = some 0 ∧
    ∀ k : Int, (pack_deadline_row [("Month", Cell.int 0)]).month = some k →
      ¬(1 ≤ k ∧ k ≤ 12) := by
  refine ⟨rfl, ?_⟩
  intro k hk
  have h0 : (pack_deadline_row [("Month", Cell.int 0)]).month = some 0 := rfl
  rw [h0] at hk
  injection hk with h
  omega

/-- C4: with the country's first tax-filing deadline record of
fixed-date kind at month 3, day 31, and fiscal-year-end 2024-12-31, a
tax-return-anchored deadline with zero (or null) offsets resolves to
calculated date 2025-03-31 — the filing year is the year after the
fiscal-year-end and a zero offset means the same day as the filing. -/
theorem C4_zero_offset_anchored (d : Rec) (cit : CitRec) (rest : List CitRec)
    (hb : is_tax_return_based d = true)
    (hk : cit.deadline_kind = "FIXED_DATE")
    (hm : cit.month = some 3) (hd : cit.day = some 31)
    (hom : d.offset_months = none ∨ d.offset_months = some 0)
    (hod : d.offset_days = none ∨ d.offset_days = some 0) :
    (calculate_deadline_from_cit d (cit :: rest) "2024-12-31" 0).calculated_date
        = some "2025-03-31" ∧
    (calculate_deadline_from_cit d (cit :: rest) "2024-12-31" 0).month = some 3 ∧
    (calculate_deadline_from_cit d (cit :: rest) "2024-12-31" 0).day = some 31 := by
  have hup : strUpper cit.deadline_kind = "FIXED_DATE" := by rw [hk]; rfl
  have hpd : (parseDate? "2024-12-31").map (fun f => f.year + 1) = some 2025 := rfl
  have hmk : mkDate? 2025 3 31 = some ⟨2025, 3, 31⟩ := rfl
  rcases hom with h1 | h1 <;> rcases hod with h2 | h2 <;>
    simp [calculate_deadline_from_cit, hb, hup, hm, hd, h1, h2, hpd, hmk] <;> rfl

/-- Witness for C4 at a concrete anchored deadline and CIT record. -/
theorem C4_zero_offset_anchored_witness :
    (calculate_deadline_from_cit { deadline_kind := "RETURN_DUE_DATE" }
      [{ deadline_kind := "FIXED_DATE", month := some 3, day := some 31 }]
      "2024-12-31" 0).calculated_date = some "2025-03-31" :=
  (C4_zero_offset_anchored { deadline_kind := "RETURN_DUE_DATE" }
    { deadline_kind := "FIXED_DATE", month := some 3, day := some 31 } []
    (by decide) rfl rfl rfl (Or.inl rfl) (Or.inl rfl)).1

/-- C6: the deadline classifier is a (deterministic) function whose
result is always HARD, SOFT, or empty, and on any text matched by both
the HARD and the SOFT pattern the result is HARD. -/
theorem C6_classifier_hard_bias (t : String) :
    (classify_deadline t = "HARD" ∨ classify_deadline t = "SOFT" ∨
      classify_deadline t = "") ∧
    (hardSearch t = true → softSearch t = true → classify_deadline t = "HARD") := by
  constructor
  · unfold classify_deadline
    rcases em (t = "") with he | he
    · simp [he]
    · simp only [if_neg he]
      cases hh : hardSearch t <;> cases hs : softSearch t <;> simp
  · intro h1 h2
    have he : t ≠ "" := by
      intro he
      rw [he] at h1
      exact absurd h1 (by decide)
    unfold classify_deadline
    simp [he, h1, h2]

/-- Witness for C6 at a text matching both patterns ("submit" is HARD
vocabulary, "upon request" SOFT). -/
theorem C6_classifier_hard_bias_witness :
    hardSearch "submit upon request" = true ∧
    softSearch "submit upon request" = true ∧
    classify_deadline "submit upon request" = "HARD" :=
  ⟨by decide, by decide,
    (C6_classifier_hard_bias "submit upon request").2 (by decide) (by decide)⟩

/-- C7: any text containing "upon request" or "not applicable"
(case-insensitively) resolves to no month, whatever else it contains
and whatever the fiscal-year-end. -/
theorem C7_undated_phrases (text fye : String)
    (h : containsStr (strLower text) "upon request" = true ∨
         containsStr (strLower text) "not applicable" = true) :
    month_from_text text fye = none := by
  unfold month_from_text
  rcases em (text = "") with he | he
  · simp [he]
  · have hc : (containsStr (strLower text) "upon request" ||
        containsStr (strLower text) "not applicable") = true := by
      rcases h with h | h <;> simp [h]
    simp [he, hc]

/-- Witness for C7: the text also contains a month name and a numeric
day that would otherwise resolve. -/
theorem C7_undated_phrases_witness :
    month_from_text "June 30 local file, submit Upon Request" "2025-12-31" = none :=
  C7_undated_phrases _ _ (Or.inl (by decide))

/-- C8: when no earlier extraction rule fires and the text matches the
"N months after fiscal-year-end" pattern, the result is
`((fye_month - 1 + N) mod 12) + 1`, which lies in 1..12. -/
theorem C8_relative_month (text fye : String) (n : Nat) (f : Date)
    (hne : text ≠ "")
    (hud : containsStr (strLower text) "upon request" = false)
    (hna : containsStr (strLower text) "not applicable" = false)
    (hmn : scanB monthHere none (strLower text).data = none)
    (hnum : scanB numDateHere none (strLower text).data = none)
    (hrel : searchSome relHere (strLower text).data = some n)
    (hf : fyeParse fye = some f) :
    month_from_text text fye = some (((f.month - 1 + n) % 12) + 1) ∧
    1 ≤ ((f.month - 1 + n) % 12) + 1 ∧ ((f.month - 1 + n) % 12) + 1 ≤ 12 := by
  refine ⟨?_, by omega, ?_⟩
  · unfold month_from_text
    simp [hne, hud, hna, hmn, hnum, hrel, hf]
  · have h12 : (f.month - 1 + n) % 12 < 12 := Nat.mod_lt _ (by decide)
    omega

/-- Witness for C8: nine months after a December fiscal-year-end is
September. -/
theorem C8_relative_month_witness :
    month_from_text "9 months after year-end" "2025-12-31" = some 9 := by
  have h := C8_relative_month "9 months after year-end" "2025-12-31" 9 ⟨2025, 12, 31⟩
    (by decide) (by decide) (by decide) (by decide) (by decide) (by decide) (by decide)
  exact h.1.trans (by decide)

theorem char_toNat_inj {a b : Char} (h : a.toNat = b.toNat) : a = b := by
  apply Char.ext
  unfold Char.toNat UInt32.toNat at h
  cases hv : a.val with | mk bv1 =>
  cases hw : b.val with | mk bv2 =>
  rw [hv, hw] at h
  simp only at h
  exact congrArg UInt32.mk (BitVec.toNat_injective h)

theorem charListLt_cons {a b : Char} {as bs : List Char} :
    charListLt (a :: as) (b :: bs) = true ↔
      a.toNat < b.toNat ∨ (a.toNat = b.toNat ∧ charListLt as bs = true) := by
  simp only [charListLt]
  by_cases h1 : a.toNat < b.toNat
  · simp [h1]
  · by_cases h2 : b.toNat < a.toNat
    · simp [h1, h2]
      omega
    · have he : a.toNat = b.toNat := by omega
      simp [h1, h2, he]

theorem charListLt_trans : ∀ (a b c : List Char),
    charListLt a b = true → charListLt b c = true → charListLt a c = true
  | [], _ :: _, _ :: _, _, _ => by simp [charListLt]
  | [], [], _, h1, _ => by simp [charListLt] at h1
  | [], _ :: _, [], _, h2 => by simp [charListLt] at h2
  | _ :: _, [], _, h1, _ => by simp [charListLt] at h1
  | _ :: _, _ :: _, [], _, h2 => by simp [charListLt] at h2
  | a :: as, b :: bs, c :: cs, h1, h2 => by
    rw [charListLt_cons] at h1 h2 ⊢
    rcases h1 with h1 | ⟨h1e, h1r⟩ <;> rcases h2 with h2 | ⟨h2e, h2r⟩
    · exact Or.inl (by omega)
    · exact Or.inl (by omega)
    · exact Or.inl (by omega)
    · exact Or.inr ⟨by omega, charListLt_trans as bs cs h1r h2r⟩

theorem charListLt_trichotomy : ∀ (a b : List Char),
    charListLt a b = true ∨ a = b ∨ charListLt b a = true
  | [], [] => Or.inr (Or.inl rfl)
  | [], _ :: _ => Or.inl (by simp [charListLt])
  | _ :: _, [] => Or.inr (Or.inr (by simp [charListLt]))
  | a :: as, b :: bs => by
    rcases Nat.lt_trichotomy a.toNat b.toNat with h | h | h
    · exact Or.inl (charListLt_cons.mpr (Or.inl h))
    · have hab : a = b := char_toNat_inj h
      rcases charListLt_trichotomy as bs with h' | h' | h'
      · exact Or.inl (charListLt_cons.mpr (Or.inr ⟨h, h'⟩))
      · exact Or.inr (Or.inl (by rw [hab, h']))
      · exact Or.inr (Or.inr (charListLt_cons.mpr (Or.inr ⟨h.symm, h'⟩)))
    · exact Or.inr (Or.inr (charListLt_cons.mpr (Or.inl h)))

theorem strLtB_trans {a b c : String} (h1 : strLtB a b = true) (h2 : strLtB b c = true) :
    strLtB a c = true :=
  charListLt_trans _ _ _ h1 h2

theorem strLtB_trichotomy (a b : String) :
    strLtB a b = true ∨ a = b ∨ strLtB b a = true := by
  rcases charListLt_trichotomy a.data b.data with h | h | h
  · exact Or.inl h
  · exact Or.inr (Or.inl (String.ext h))
  · exact Or.inr (Or.inr h)

theorem countryLe_total (a b : Country) : countryLe a b ∨ countryLe b a := by
  unfold countryLe countryLeB pairLeB
  rcases strLtB_trichotomy a.region b.region with h | h | h
  · exact Or.inl (by simp [h])
  · rcases strLtB_trichotomy (strLower a.name) (strLower b.name) with h' | h' | h'
    · exact Or.inl (by simp [h, h'])
    · exact Or.inl (by simp [h, h'])
    · exact Or.inr (by simp [h, h'])
  · exact Or.inr (by simp [h])

theorem countryLe_trans {a b c : Country} (h1 : countryLe a b) (h2 : countryLe b c) :
    countryLe a c := by
  unfold countryLe countryLeB pairLeB at *
  simp only [Bool.or_eq_true, Bool.and_eq_true, decide_eq_true_eq] at h1 h2 ⊢
  rcases h1 with h1 | ⟨h1e, h1n⟩ <;> rcases h2 with h2 | ⟨h2e, h2n⟩
  · exact Or.inl (strLtB_trans h1 h2)
  · exact Or.inl (h2e ▸ h1)
  · exact Or.inl (h1e ▸ h2)
  · refine Or.inr ⟨h1e.trans h2e, ?_⟩
    rcases h1n with h1n | h1n <;> rcases h2n with h2n | h2n
    · exact Or.inl (strLtB_trans h1n h2n)
    · exact Or.inl (h2n ▸ h1n)
    · exact Or.inl (h1n ▸ h2n)
    · exact Or.inr (h1n.trans h2n)

instance : IsTotal Country countryLe := ⟨countryLe_total⟩

instance : IsTrans Country countryLe := ⟨fun _ _ _ => countryLe_trans⟩

/-- Case-insensitive comparison of a `(region, name)` ordering key, as
claim C9 reads the ordering. -/
def ciPairLeB (a b : String × String) : Bool :=
  pairLeB (strLower a.1, strLower a.2) (strLower b.1, strLower b.2)

/-- The country/region sheet used by the concrete examples: Germany,
ISO-3 code DEU, region Europe. -/
def ctG : CountryTable :=
  { cols := ["Country", "Code_3", "Region"]
    rows := [[("Country", Cell.str "Germany"), ("Code_3", Cell.str "DEU"),
              ("Region", Cell.str "Europe")]] }

/-- A country/region sheet with regions of mixed case. -/
def ctMix : CountryTable :=
  { cols := ["Country", "Code_3", "Region"]
    rows := [[("Country", Cell.str "Alpha"), ("Code_3", Cell.str "AAA"),
              ("Region", Cell.str "apac")],
             [("Country", Cell.str "Beta"), ("Code_3", Cell.str "BBB"),
              ("Region", Cell.str "EMEA")]] }

/-- A threshold row referencing Alpha. -/
def rowAlphaTh : Row := [("Jurisdiction", Cell.str "Alpha")]

/-- A threshold row referencing Beta. -/
def rowBetaTh : Row := [("Jurisdiction", Cell.str "Beta")]

/-- C9 amended: the compiled countries are sorted ascending by the key
(region, lowercased name) — the region compared exactly
(case-sensitively), only the name case-insensitively. -/
theorem C9_countries_sorted (df_countries : CountryTable)
    (lf_th lf_dl mf_th mf_dl forms cbcr cit : List Row) (fye : String)
    (doc : Doc) (unm : List String)
    (h : compile_rules df_countries lf_th lf_dl mf_th mf_dl forms cbcr cit fye
        = some (doc, unm)) :
    List.Pairwise countryLe doc.countries := by
  unfold compile_rules at h
  split at h
  · exact absurd h (by simp)
  · have h' := Option.some.inj h
    have hdoc : { fye := fye, countries := finalCountries _ } = doc :=
      congrArg Prod.fst h'
    rw [← hdoc]
    exact List.sorted_insertionSort countryLe _

/-- Witness for C9 at a concrete two-country input. -/
theorem C9_countries_sorted_witness :
    List.Pairwise countryLe
      [{ name := "Beta", region := "EMEA",
         lf_tpd_thresholds := [{ doc_type := "LF" }] },
       { name := "Alpha", region := "apac",
         lf_tpd_thresholds := [{ doc_type := "LF" }] }] := by
  have h := C9_countries_sorted ctMix [rowAlphaTh, rowBetaTh] [] [] [] [] [] [] ""
    { fye := ""
      countries := [{ name := "Beta", region := "EMEA",
                      lf_tpd_thresholds := [{ doc_type := "LF" }] },
                    { name := "Alpha", region := "apac",
                      lf_tpd_thresholds := [{ doc_type := "LF" }] }] }
    [] rfl
  exact h

/-- C9 counterexample: with regions "apac" and "EMEA", the compiled
order puts region "EMEA" first (uppercase sorts before lowercase in
code-point order), so the adjacent pair violates the claimed
case-insensitive ordering of the (region, name) key. -/
theorem C9_counterexample :
    ((compile_rules ctMix [rowAlphaTh, rowBetaTh] [] [] [] [] [] [] "").map
        (fun p => p.1.countries.map (fun c => (c.region, c.name))))
      = some [("EMEA", "Beta"), ("apac", "Alpha")] ∧
    ciPairLeB ("EMEA", "Beta") ("apac", "Alpha") = false :=
  ⟨rfl, rfl⟩

/-- A threshold row with an unrecognised jurisdiction token. -/
def rowAtl : Row := [("Jurisdiction", Cell.str "Atlantis")]

/-- C1 counterexample: in `compile_rules2.py` the unrecognised token
"Atlantis" creates a country record named after the token with empty
region, the compiled document contains that entry, and the token is
never added to the unmatched set (which stays empty). -/
theorem C1_counterexample :
    ((compile_rules ctG [rowAtl] [] [] [] [] [] [] "").map
        (fun p => (p.1.countries.map (fun c => (c.name, c.region)), p.2)))
      = some ([("Atlantis", "")], []) := rfl

theorem strLower_ne_empty {s : String} (h : s ≠ "") : strLower s ≠ "" := by
  intro hc
  apply h
  apply String.ext
  unfold strLower at hc
  have hd := congrArg String.data hc
  simpa using hd

theorem ensure_country_create {reg : Registry} {j : String} {n2r c2n : Smap}
    {full : String}
    (hne : j ≠ "") (ht : strTrim j = j)
    (hfull : (c2n.get? (strUpper j)).getD j = full)
    (hfind : reg.find? (fun e => e.1 = strLower full) = none) :
    ensure_country reg j n2r c2n
      = (reg ++ [(strLower full,
          { name := full, region := (n2r.get? (strLower j)).getD "" })],
         some (strLower full)) := by
  simp only [ensure_country, if_neg hne, ht, hfull, hfind]
  simp

theorem ensure_country_existing {reg : Registry} {j : String} {n2r c2n : Smap}
    {full : String}
    (hne : j ≠ "") (ht : strTrim j = j)
    (hfull : (c2n.get? (strUpper j)).getD j = full)
    (hfind : (reg.find? (fun e => e.1 = strLower full)).isSome = true) :
    ensure_country reg j n2r c2n = (reg, some (strLower full)) := by
  simp only [ensure_country, if_neg hne, ht, hfull, hfind]
  simp

/-- C1 amended: in `compile_rules2.py`, only an empty jurisdiction
token is skipped — a non-empty token that is neither a known code nor a
known name still creates a Country Record keyed by the token itself
(lowercased), with the token as display name and empty region; the
token is not recorded as unmatched (`ensure_country` returns a key, so
the caller never reaches the unmatched branch).  In `compile_rules.py`,
the resolver behaves as the claim states: an unrecognised token yields
no record and leaves the registry unchanged. -/
theorem C1_unrecognized_token (reg : Registry) (reg1 : Registry1)
    (n2r c2n n2i n2r1 : Smap) (j : String)
    (hj : strTrim j = j) (hne : j ≠ "")
    (hcode : c2n.get? (strUpper j) = none)
    (hname : n2r.get? (strLower j) = none)
    (habs : reg.find? (fun e => e.1 = strLower j) = none)
    (hiso : n2i.get? (strLower j) = none) :
    ensure_country reg j n2r c2n
      = (reg ++ [(strLower j, { name := j, region := "" })], some (strLower j)) ∧
    ensure_country1 reg1 n2i n2r1 j = (reg1, none) := by
  constructor
  · rw [ensure_country_create hne hj (by rw [hcode]; rfl) habs, hname]
    rfl
  · unfold ensure_country1
    rw [hj, if_neg (strLower_ne_empty hne), hiso]

/-- Witness for C1 amended, at the token "Atlantis" against the
Germany-only lookup maps. -/
theorem C1_unrecognized_token_witness :
    ensure_country [] "Atlantis"
        [("germany", "Europe"), ("deu", "Europe")] [("DEU", "Germany")]
      = ([("atlantis", { name := "Atlantis", region := "" })], some "atlantis") ∧
    ensure_country1 [] [("germany", "DE")] [("germany", "Europe")] "Atlantis"
      = ([], none) :=
  C1_unrecognized_token [] [] [("germany", "Europe"), ("deu", "Europe")]
    [("DEU", "Germany")] [("germany", "DE")] [("germany", "Europe")] "Atlantis"
    rfl (by decide) rfl rfl rfl rfl

/-- Number of registry entries stored under key `k`. -/
def countKey (reg : Registry) (k : String) : Nat :=
  (reg.filter (fun e => e.1 = k)).length

theorem countKey_append (reg : Registry) (e : String × Country) (k : String) :
    countKey (reg ++ [e]) k = countKey reg k + (if e.1 = k then 1 else 0) := by
  unfold countKey
  rw [List.filter_append]
  by_cases h : e.1 = k <;> simp [h]

theorem countKey_zero_find {reg : Registry} {k : String} (h : countKey reg k = 0) :
    reg.find? (fun e => e.1 = k) = none := by
  unfold countKey at h
  rw [List.length_eq_zero] at h
  rw [List.find?_eq_none]
  intro x hx
  exact List.filter_eq_nil_iff.mp h x hx

theorem countKey_one_find {reg : Registry} {k : String} (h : countKey reg k = 1) :
    (reg.find? (fun e => e.1 = k)).isSome = true := by
  cases hf : reg.find? (fun e => e.1 = k) with
  | some v => rfl
  | none =>
    have hfil : reg.filter (fun e => e.1 = k) = [] :=
      List.filter_eq_nil_iff.mpr (List.find?_eq_none.mp hf)
    unfold countKey at h
    rw [hfil] at h
    simp at h

/-- C2: two source rows referencing the same country, one by canonical
name and one by its 3-letter code, yield exactly one registry entry for
that country, regardless of resolution order; starting from an empty
registry, the registry key list is exactly the one canonical key, so
the compiled document (the sorted registry values) contains exactly one
country record for that country. -/
theorem C2_identity_unification (n2r c2n : Smap) (name code : String) (reg : Registry)
    (hnt : strTrim name = name) (hct : strTrim code = code)
    (hne : name ≠ "") (hce : code ≠ "")
    (hcode : c2n.get? (strUpper code) = some name)
    (hself : c2n.get? (strUpper name) = none)
    (h0 : countKey reg (strLower name) = 0) :
    countKey ((ensure_country (ensure_country reg name n2r c2n).1 code n2r c2n).1)
        (strLower name) = 1 ∧
    countKey ((ensure_country (ensure_country reg code n2r c2n).1 name n2r c2n).1)
        (strLower name) = 1 ∧
    ((ensure_country (ensure_country [] name n2r c2n).1 code n2r c2n).1).map Prod.fst
      = [strLower name] ∧
    ((ensure_country (ensure_country [] code n2r c2n).1 name n2r c2n).1).map Prod.fst
      = [strLower name] := by
  have hfind0 := countKey_zero_find h0
  have hfullN : (c2n.get? (strUpper name)).getD name = name := by rw [hself]; rfl
  have hfullC : (c2n.get? (strUpper code)).getD code = name := by rw [hcode]; rfl
  refine ⟨?_, ?_, ?_, ?_⟩
  · have hA := @ensure_country_create reg name n2r c2n name hne hnt hfullN hfind0
    have hc1 : countKey (ensure_country reg name n2r c2n).1 (strLower name) = 1 := by
      rw [hA, countKey_append, h0]
      simp
    have hfind1 := countKey_one_find hc1
    rw [ensure_country_existing hce hct hfullC hfind1]
    exact hc1
  · have hA := @ensure_country_create reg code n2r c2n name hce hct hfullC hfind0
    have hc1 : countKey (ensure_country reg code n2r c2n).1 (strLower name) = 1 := by
      rw [hA, countKey_append, h0]
      simp
    have hfind1 := countKey_one_find hc1
    rw [ensure_country_existing hne hnt hfullN hfind1]
    exact hc1
  · have hA := @ensure_country_create [] name n2r c2n name hne hnt hfullN rfl
    rw [hA]
    dsimp only
    rw [ensure_country_existing hce hct hfullC (by simp)]
    simp
  · have hA := @ensure_country_create [] code n2r c2n name hce hct hfullC rfl
    rw [hA]
    dsimp only
    rw [ensure_country_existing hne hnt hfullN (by simp)]
    simp

/-- Witness for C2 at Germany/DEU with the Germany lookup maps. -/
theorem C2_identity_unification_witness :
    countKey ((ensure_country (ensure_country [] "Germany"
        [("germany", "Europe"), ("deu", "Europe")] [("DEU", "Germany")]).1 "DEU"
        [("germany", "Europe"), ("deu", "Europe")] [("DEU", "Germany")]).1)
      "germany" = 1 ∧
    ((ensure_country (ensure_country [] "Germany"
        [("germany", "Europe"), ("deu", "Europe")] [("DEU", "Germany")]).1 "DEU"
        [("germany", "Europe"), ("deu", "Europe")] [("DEU", "Germany")]).1).map Prod.fst
      = ["germany"] := by
  have h := C2_identity_unification [("germany", "Europe"), ("deu", "Europe")]
    [("DEU", "Germany")] "Germany" "DEU" [] rfl rfl (by decide) (by decide) rfl rfl rfl
  exact ⟨h.1, h.2.2.1⟩

/-- The last row of the notification table that qualifies for storage,
in source order. -/
def lastQualifying (rows : List Row) : Option Row :=
  (rows.filter (fun r => cbcrQualifies (pack_cbcr_row r))).getLast?

/-- The cbcr slot after folding the notification rows over an initial
value. -/
def cbcrAfter (init : Option Rec) (rows : List Row) : Option Rec :=
  match lastQualifying rows with
  | some r => some (pack_cbcr_row r)
  | none => init

theorem getLast?_cons_eq {α : Type} (a : α) (l : List α) :
    (a :: l).getLast? = match l.getLast? with
      | some x => some x
      | none => some a := by
  cases l with
  | nil => rfl
  | cons b t =>
    rw [List.getLast?_cons_cons]
    cases hb : (b :: t).getLast? with
    | some x => rfl
    | none => exact absurd hb (by simp)

theorem cbcrAfter_cons (init : Option Rec) (r : Row) (rs : List Row) :
    cbcrAfter init (r :: rs)
      = cbcrAfter (if cbcrQualifies (pack_cbcr_row r) then some (pack_cbcr_row r) else init)
          rs := by
  unfold cbcrAfter lastQualifying
  by_cases hq : cbcrQualifies (pack_cbcr_row r)
  · rw [List.filter_cons_of_pos (by simpa using hq), getLast?_cons_eq]
    cases h : (rs.filter (fun r => cbcrQualifies (pack_cbcr_row r))).getLast? <;>
      simp [h, hq]
  · rw [List.filter_cons_of_neg (by simpa using hq)]
    simp [hq]

/-- The Germany lookup maps built from `ctG`. -/
def gMaps : Smap × Smap :=
  ([("germany", "Europe"), ("deu", "Europe")], [("DEU", "Germany")])

theorem cbcrStep_germany (c0 : Country) (u : List String) (r : Row)
    (hr : clean (Row.get r "Jurisdiction") = "Germany") :
    cbcrStep gMaps ([("germany", c0)], u) r
      = ([("germany",
           if cbcrQualifies (pack_cbcr_row r) then { c0 with cbcr := some (pack_cbcr_row r) }
           else c0)], u) := by
  have hens : ensure_country [("germany", c0)] "Germany" gMaps.1 gMaps.2
      = ([("germany", c0)], some "germany") :=
    ensure_country_existing (by decide) rfl rfl rfl
  unfold cbcrStep
  rw [hr]
  simp only [hens]
  by_cases hq : cbcrQualifies (pack_cbcr_row r) <;>
    simp [hq, Registry.modify]

theorem cbcr_fold_germany : ∀ (rows : List Row) (c0 : Country) (u : List String),
    (∀ r ∈ rows, clean (Row.get r "Jurisdiction") = "Germany") →
    rows.foldl (cbcrStep gMaps) ([("germany", c0)], u)
      = ([("germany", { c0 with cbcr := cbcrAfter c0.cbcr rows })], u)
  | [], c0, u, _ => by simp [cbcrAfter, lastQualifying]
  | r :: rs, c0, u, hall => by
    rw [List.foldl_cons, cbcrStep_germany c0 u r (hall r (by simp))]
    rw [cbcr_fold_germany rs _ u (fun x hx => hall x (by simp [hx]))]
    rw [cbcrAfter_cons]
    by_cases hq : cbcrQualifies (pack_cbcr_row r) <;> simp [hq]

/-- C10 amended: during ingestion the cbcr slot always holds the packed
record of the last qualifying notification row seen so far (later
non-qualifying rows are skipped and do not clear it); when no
fiscal-year-end is supplied, the compiled document's cbcr field equals
exactly the packed record of the last qualifying row in source order.
(With a fiscal-year-end and CIT deadlines present, the stored record
may additionally be enriched by the tax-anchored calculator — see the
counterexample.) -/
theorem C10_last_qualifying_wins (rows : List Row) (hne : rows ≠ [])
    (hall : ∀ r ∈ rows, clean (Row.get r "Jurisdiction") = "Germany") :
    compile_rules ctG [] [] [] [] [] rows [] ""
      = some ({ fye := "",
                countries := [{ name := "Germany", region := "Europe",
                                cbcr := (lastQualifying rows).map pack_cbcr_row }] },
              []) := by
  have hload : load_country_map ctG = some gMaps := rfl
  unfold compile_rules
  rw [hload]
  simp only [List.foldl_nil]
  cases rows with
  | nil => exact absurd rfl hne
  | cons r0 rest =>
    have hr0 : clean (Row.get r0 "Jurisdiction") = "Germany" := hall r0 (by simp)
    have hens : ensure_country [] "Germany" gMaps.1 gMaps.2
        = ([("germany", { name := "Germany", region := "Europe" })], some "germany") :=
      ensure_country_create (by decide) rfl rfl rfl
    rw [List.foldl_cons]
    have hstep : cbcrStep gMaps ([], []) r0
        = ([("germany",
             if cbcrQualifies (pack_cbcr_row r0) then
               { name := "Germany", region := "Europe", cbcr := some (pack_cbcr_row r0) }
             else { name := "Germany", region := "Europe" })], []) := by
      unfold cbcrStep
      rw [hr0]
      simp only [hens]
      by_cases hq : cbcrQualifies (pack_cbcr_row r0) <;>
        simp [hq, Registry.modify]
    rw [hstep,
      cbcr_fold_germany rest _ [] (fun x hx => hall x (by simp [hx]))]
    have hcb : cbcrAfter
        (if cbcrQualifies (pack_cbcr_row r0) then
          ({ name := "Germany", region := "Europe", cbcr := some (pack_cbcr_row r0) } :
            Country)
         else { name := "Germany", region := "Europe" }).cbcr rest
        = (lastQualifying (r0 :: rest)).map pack_cbcr_row := by
      rw [show (lastQualifying (r0 :: rest)).map pack_cbcr_row
            = cbcrAfter none (r0 :: rest) by
          cases h : lastQualifying (r0 :: rest) <;> simp [cbcrAfter, h]]
      rw [cbcrAfter_cons]
      by_cases hq : cbcrQualifies (pack_cbcr_row r0) <;> simp [hq]
    by_cases hq : cbcrQualifies (pack_cbcr_row r0)
    · rw [if_pos hq] at hcb ⊢
      rw [hcb]
      rfl
    · rw [if_neg hq] at hcb ⊢
      rw [hcb]
      rfl

/-- A qualifying notification row (required, month 1). -/
def rq1 : Row :=
  [("Jurisdiction", Cell.str "Germany"), ("Required", Cell.str "Yes"),
   ("Month", Cell.int 1)]

/-- A later qualifying, tax-return-anchored notification row. -/
def rq2 : Row :=
  [("Jurisdiction", Cell.str "Germany"), ("Required", Cell.str "Yes"),
   ("DeadlineKind", Cell.str "RETURN_DUE_DATE"), ("Month", Cell.int 2)]

/-- A trailing non-qualifying notification row. -/
def rn3 : Row := [("Jurisdiction", Cell.str "Germany"), ("Required", Cell.str "No")]

/-- A CIT deadline row for Germany, fixed at 31 March. -/
def citRowG : Row :=
  [("Jurisdiction (3-letter code)", Cell.str "DEU"),
   ("DeadlineKind", Cell.str "FIXED_DATE"), ("Month", Cell.int 3),
   ("Day", Cell.int 31)]

/-- Witness for C10 amended: two qualifying rows followed by a
non-qualifying one — the stored cbcr is the second row's packed record. -/
theorem C10_last_qualifying_wins_witness :
    compile_rules ctG [] [] [] [] [] [rq1, rq2, rn3] [] ""
      = some ({ fye := "",
                countries := [{ name := "Germany", region := "Europe",
                                cbcr := (lastQualifying [rq1, rq2, rn3]).map
                                  pack_cbcr_row }] },
              []) :=
  C10_last_qualifying_wins [rq1, rq2, rn3] (by decide) (by decide)

/-- C10 counterexample: with a fiscal-year-end supplied and a CIT
deadline present, the compiled cbcr is the enriched record (it gains a
calculated date and its month is overwritten), so it is not equal to
the packed record of the last qualifying row (whose calculated date is
null and whose month is 2). -/
theorem C10_counterexample :
    ((compile_rules ctG [] [] [] [] [] [rq1, rq2, rn3] [citRowG] "2024-12-31").map
        (fun p => p.1.countries.map
          (fun c => c.cbcr.map (fun x => (x.calculated_date, x.month)))))
      = some [some (some "2025-03-31", some 3)] ∧
    lastQualifying [rq1, rq2, rn3] = some rq2 ∧
    ((pack_cbcr_row rq2).calculated_date, (pack_cbcr_row rq2).month)
      = (none, some 2) :=
  ⟨rfl, rfl, rfl⟩

/-- Boolean check: no deadline, form, or notification record of the
country carries a `calculated_date`. -/
def noCalcB (c : Country) : Bool :=
  c.lf_tpd_deadlines.all (fun r => r.calculated_date.isNone) &&
  c.mf_deadlines.all (fun r => r.calculated_date.isNone) &&
  c.tp_forms.all (fun r => r.calculated_date.isNone) &&
  (match c.cbcr with
   | some r => r.calculated_date.isNone
   | none => true)

theorem foldl_preserve {σ α : Type} (P : σ → Prop) (f : σ → α → σ)
    (hf : ∀ s a, P s → P (f s a)) : ∀ (l : List α) (s : σ), P s → P (l.foldl f s)
  | [], _, h => h
  | a :: l, s, h => foldl_preserve P f hf l (f s a) (hf s a h)

theorem ensure_country_cases (reg : Registry) (j : String) (m1 m2 : Smap) :
    (ensure_country reg j m1 m2).1 = reg ∨
    ∃ k c, (ensure_country reg j m1 m2).1 = reg ++ [(k, c)] ∧ noCalcB c = true := by
  simp only [ensure_country]
  split
  · exact Or.inl rfl
  · split
    · exact Or.inl rfl
    · exact Or.inr ⟨_, _, rfl, rfl⟩

theorem ensure_country_noCalc {reg : Registry} {j : String} {m1 m2 : Smap}
    (h : ∀ e ∈ reg, noCalcB e.2 = true) :
    ∀ e ∈ (ensure_country reg j m1 m2).1, noCalcB e.2 = true := by
  intro e he
  rcases ensure_country_cases reg j m1 m2 with hc | ⟨k, c, hc, hnc⟩
  · rw [hc] at he
    exact h e he
  · rw [hc] at he
    rcases List.mem_append.mp he with h1 | h1
    · exact h e h1
    · rw [List.mem_singleton.mp h1]
      exact hnc

theorem modify_noCalc {reg : Registry} {k : String} {f : Country → Country}
    (h : ∀ e ∈ reg, noCalcB e.2 = true)
    (hf : ∀ c, noCalcB c = true → noCalcB (f c) = true) :
    ∀ e ∈ reg.modify k f, noCalcB e.2 = true := by
  intro e he
  unfold Registry.modify at he
  rcases List.mem_map.mp he with ⟨x, hx, hmap⟩
  by_cases hk : x.1 = k
  · rw [if_pos hk] at hmap
    rw [← hmap]
    exact hf x.2 (h x hx)
  · rw [if_neg hk] at hmap
    rw [← hmap]
    exact h x hx

theorem noCalc_append_lf (c : Country) (row : Rec) (hc : noCalcB c = true)
    (hr : row.calculated_date = none) :
    noCalcB { c with lf_tpd_deadlines := c.lf_tpd_deadlines ++ [row] } = true := by
  unfold noCalcB at hc ⊢
  simp only [Bool.and_eq_true] at hc ⊢
  exact ⟨⟨⟨by simp [List.all_append, hc.1.1.1, hr], hc.1.1.2⟩, hc.1.2⟩, hc.2⟩

theorem noCalc_append_mf (c : Country) (row : Rec) (hc : noCalcB c = true)
    (hr : row.calculated_date = none) :
    noCalcB { c with mf_deadlines := c.mf_deadlines ++ [row] } = true := by
  unfold noCalcB at hc ⊢
  simp only [Bool.and_eq_true] at hc ⊢
  exact ⟨⟨⟨hc.1.1.1, by simp [List.all_append, hc.1.1.2, hr]⟩, hc.1.2⟩, hc.2⟩

theorem noCalc_append_forms (c : Country) (row : Rec) (hc : noCalcB c = true)
    (hr : row.calculated_date = none) :
    noCalcB { c with tp_forms := c.tp_forms ++ [row] } = true := by
  unfold noCalcB at hc ⊢
  simp only [Bool.and_eq_true] at hc ⊢
  exact ⟨⟨⟨hc.1.1.1, hc.1.1.2⟩, by simp [List.all_append, hc.1.2, hr]⟩, hc.2⟩

theorem noCalc_set_cbcr (c : Country) (row : Rec) (hc : noCalcB c = true)
    (hr : row.calculated_date = none) :
    noCalcB { c with cbcr := some row } = true := by
  unfold noCalcB at hc ⊢
  simp only [Bool.and_eq_true] at hc ⊢
  exact ⟨hc.1, by simp [hr]⟩

theorem noCalc_append_th (c : Country) (l1 l2 : List ThresholdRec)
    (hc : noCalcB c = true) :
    noCalcB { c with lf_tpd_thresholds := l1, mf_thresholds := l2 } = true := hc

/-- The invariant carried through the ingestion folds. -/
abbrev RegNoCalc (reg : Registry) : Prop := ∀ e ∈ reg, noCalcB e.2 = true

theorem lfThStep_noCalc (maps : Smap × Smap) (st : IngestSt) (r : Row)
    (h : RegNoCalc st.1) : RegNoCalc (lfThStep maps st r).1 := by
  cases hsplit : ensure_country st.1 (clean (Row.get r "Jurisdiction")) maps.1 maps.2 with
  | mk reg ko =>
    have hreg : RegNoCalc reg := by
      have := @ensure_country_noCalc st.1 (clean (Row.get r "Jurisdiction"))
        maps.1 maps.2 h
      rw [hsplit] at this
      exact this
    cases ko with
    | none =>
      simp only [lfThStep, hsplit]
      exact hreg
    | some k =>
      simp only [lfThStep, hsplit]
      split
      · dsimp only
        refine modify_noCalc hreg ?_
        intro c hc
        exact hc
      · exact hreg

theorem mfThStep_noCalc (maps : Smap × Smap) (st : IngestSt) (r : Row)
    (h : RegNoCalc st.1) : RegNoCalc (mfThStep maps st r).1 := by
  cases hsplit : ensure_country st.1 (clean (Row.get r "Jurisdiction")) maps.1 maps.2 with
  | mk reg ko =>
    have hreg : RegNoCalc reg := by
      have := @ensure_country_noCalc st.1 (clean (Row.get r "Jurisdiction"))
        maps.1 maps.2 h
      rw [hsplit] at this
      exact this
    cases ko with
    | none =>
      simp only [mfThStep, hsplit]
      exact hreg
    | some k =>
      simp only [mfThStep, hsplit]
      split
      · dsimp only
        refine modify_noCalc hreg ?_
        intro c hc
        exact hc
      · exact hreg

theorem lfDlStep_noCalc (maps : Smap × Smap) (st : IngestSt) (r : Row)
    (h : RegNoCalc st.1) : RegNoCalc (lfDlStep maps st r).1 := by
  cases hsplit : ensure_country st.1 (clean (Row.get r "Jurisdiction")) maps.1 maps.2 with
  | mk reg ko =>
    have hreg : RegNoCalc reg := by
      have := @ensure_country_noCalc st.1 (clean (Row.get r "Jurisdiction"))
        maps.1 maps.2 h
      rw [hsplit] at this
      exact this
    cases ko with
    | none =>
      simp only [lfDlStep, hsplit]
      exact hreg
    | some k =>
      simp only [lfDlStep, hsplit]
      refine modify_noCalc hreg ?_
      intro c hc
      exact noCalc_append_lf c _ hc rfl

theorem mfDlStep_noCalc (maps : Smap × Smap) (st : IngestSt) (r : Row)
    (h : RegNoCalc st.1) : RegNoCalc (mfDlStep maps st r).1 := by
  cases hsplit : ensure_country st.1 (clean (Row.get r "Jurisdiction")) maps.1 maps.2 with
  | mk reg ko =>
    have hreg : RegNoCalc reg := by
      have := @ensure_country_noCalc st.1 (clean (Row.get r "Jurisdiction"))
        maps.1 maps.2 h
      rw [hsplit] at this
      exact this
    cases ko with
    | none =>
      simp only [mfDlStep, hsplit]
      exact hreg
    | some k =>
      simp only [mfDlStep, hsplit]
      refine modify_noCalc hreg ?_
      intro c hc
      exact noCalc_append_mf c _ hc rfl

theorem formsStep_noCalc (maps : Smap × Smap) (st : IngestSt) (r : Row)
    (h : RegNoCalc st.1) : RegNoCalc (formsStep maps st r).1 := by
  cases hsplit : ensure_country st.1 (clean (Row.get r "Jurisdiction")) maps.1 maps.2 with
  | mk reg ko =>
    have hreg : RegNoCalc reg := by
      have := @ensure_country_noCalc st.1 (clean (Row.get r "Jurisdiction"))
        maps.1 maps.2 h
      rw [hsplit] at this
      exact this
    cases ko with
    | none =>
      simp only [formsStep, hsplit]
      exact hreg
    | some k =>
      simp only [formsStep, hsplit]
      refine modify_noCalc hreg ?_
      intro c hc
      exact noCalc_append_forms c _ hc rfl

theorem cbcrStep_noCalc (maps : Smap × Smap) (st : IngestSt) (r : Row)
    (h : RegNoCalc st.1) : RegNoCalc (cbcrStep maps st r).1 := by
  cases hsplit : ensure_country st.1 (clean (Row.get r "Jurisdiction")) maps.1 maps.2 with
  | mk reg ko =>
    have hreg : RegNoCalc reg := by
      have := @ensure_country_noCalc st.1 (clean (Row.get r "Jurisdiction"))
        maps.1 maps.2 h
      rw [hsplit] at this
      exact this
    cases ko with
    | none =>
      simp only [cbcrStep, hsplit]
      exact hreg
    | some k =>
      simp only [cbcrStep, hsplit]
      split
      · exact hreg
      · dsimp only
        refine modify_noCalc hreg ?_
        intro c hc
        exact noCalc_set_cbcr c _ hc rfl

theorem citStep_noCalc (c2n : Smap) (reg : Registry) (r : Row)
    (h : RegNoCalc reg) : RegNoCalc (citStep c2n reg r) := by
  simp only [citStep]
  split
  · exact h
  · split
    · exact h
    · refine modify_noCalc h ?_
      intro c hc
      exact hc

theorem sortGroup_all {α : Type} (key : α → String × Int) (p : α → Bool)
    (l : List α) :
    (sort_group key l).all p = l.all p := by
  have hperm := List.perm_insertionSort
    (fun x y => grpKeyLeB (key x) (key y) = true) l
  by_cases hb : l.all p = true
  · rw [hb, List.all_eq_true]
    intro x hx
    exact List.all_eq_true.mp hb x (hperm.mem_iff.mp hx)
  · rw [Bool.eq_false_iff.mpr hb]
    rw [Bool.eq_false_iff]
    intro hc
    apply hb
    rw [List.all_eq_true]
    intro x hx
    exact List.all_eq_true.mp hc x (hperm.mem_iff.mpr hx)

theorem sortCountryGroups_noCalc (c : Country) (h : noCalcB c = true) :
    noCalcB (sortCountryGroups c) = true := by
  unfold noCalcB sortCountryGroups at *
  simp only [Bool.and_eq_true] at h ⊢
  exact ⟨⟨⟨by rw [sortGroup_all]; exact h.1.1.1,
          by rw [sortGroup_all]; exact h.1.1.2⟩,
         by rw [sortGroup_all]; exact h.1.2⟩, h.2⟩

theorem enhance_empty_fye (reg : Registry) : enhance "" reg = reg := by
  unfold enhance
  rw [if_pos rfl]

/-- Membership transfer through `finalCountries` over sorted groups. -/
theorem finalCountries_noCalc {reg : Registry} (h : RegNoCalc reg) :
    (finalCountries (reg.map (fun e => (e.1, sortCountryGroups e.2)))).all noCalcB
      = true := by
  rw [List.all_eq_true]
  intro c hc
  unfold finalCountries at hc
  have hmem := (List.perm_insertionSort countryLe _).mem_iff.mp hc
  rcases List.mem_map.mp hmem with ⟨e, he, hce⟩
  rcases List.mem_map.mp he with ⟨e0, he0, he1⟩
  rw [← hce, ← he1]
  exact sortCountryGroups_noCalc _ (h e0 he0)

/-- C5: with no fiscal-year-end supplied, no deadline, form, or
notification record in the compiled document acquires a
`calculated_date`, for every input table set: the enhancement pass is
guarded by a non-empty `fye`, and every packer leaves the field null. -/
theorem C5_no_fye_no_calculated_date (df_countries : CountryTable)
    (lf_th lf_dl mf_th mf_dl forms cbcr cit : List Row)
    (doc : Doc) (unm : List String)
    (h : compile_rules df_countries lf_th lf_dl mf_th mf_dl forms cbcr cit ""
        = some (doc, unm)) :
    doc.countries.all noCalcB = true := by
  unfold compile_rules at h
  split at h
  · exact absurd h (by simp)
  · rename_i maps _
    have h' := Option.some.inj h
    have hdoc : { fye := "", countries := finalCountries _ } = doc :=
      congrArg Prod.fst h'
    rw [← hdoc]
    have hbase : RegNoCalc (([], []) : IngestSt).1 := by
      intro e he
      cases he
    have h1 := foldl_preserve (fun st : IngestSt => RegNoCalc st.1) (lfThStep maps)
      (fun s a => lfThStep_noCalc maps s a) lf_th _ hbase
    have h2 := foldl_preserve (fun st : IngestSt => RegNoCalc st.1) (lfDlStep maps)
      (fun s a => lfDlStep_noCalc maps s a) lf_dl _ h1
    have h3 := foldl_preserve (fun st : IngestSt => RegNoCalc st.1) (mfThStep maps)
      (fun s a => mfThStep_noCalc maps s a) mf_th _ h2
    have h4 := foldl_preserve (fun st : IngestSt => RegNoCalc st.1) (mfDlStep maps)
      (fun s a => mfDlStep_noCalc maps s a) mf_dl _ h3
    have h5 := foldl_preserve (fun st : IngestSt => RegNoCalc st.1) (formsStep maps)
      (fun s a => formsStep_noCalc maps s a) forms _ h4
    have h6 := foldl_preserve (fun st : IngestSt => RegNoCalc st.1) (cbcrStep maps)
      (fun s a => cbcrStep_noCalc maps s a) cbcr _ h5
    have h7 := foldl_preserve RegNoCalc (citStep maps.2)
      (fun s a => citStep_noCalc maps.2 s a) cit _ h6
    show (finalCountries _).all noCalcB = true
    rw [enhance_empty_fye]
    exact finalCountries_noCalc h7

/-- An LF deadline row for Germany used by the C5 witness. -/
def rowDlG : Row :=
  [("Jurisdiction", Cell.str "Germany"), ("Month", Cell.int 6),
   ("Day", Cell.int 30), ("DisplayText", Cell.str "File by June 30")]

/-- Witness for C5 at a concrete one-country, one-deadline input. -/
theorem C5_no_fye_no_calculated_date_witness :
    ({ fye := ""
       countries := [{ name := "Germany", region := "Europe",
                       lf_tpd_deadlines := [{ month := some 6, day := some 30,
                                              month_name := "Jun",
                                              text := "File by June 30",
                                              doc_type := "LF" }] }] } :
      Doc).countries.all noCalcB = true :=
  C5_no_fye_no_calculated_date ctG [] [rowDlG] [] [] [] [] []
    { fye := ""
      countries := [{ name := "Germany", region := "Europe",
                      lf_tpd_deadlines := [{ month := some 6, day := some 30,
                                             month_name := "Jun",
                                             text := "File by June 30",
                                             doc_type := "LF" }] }] }
    [] rfl

end TP
